import Mathlib

/-!
Verification of the QR-code PDF generator (src/main.py).

The program lays out a fixed number of QR-code/handwriting-box rows per
page, with optional double-sided margin mirroring, a page-number label,
random 32-hex-character identifiers, argument validation and a
timestamped output filename.  The definitions below are a shallow
embedding of the layout arithmetic and control flow of `main.py`; page
coordinates are integers (all constants and operations in the source are
integer-valued), and the external PDF canvas is modelled as a trace of
drawing instructions.
-/

/-- The `LAYOUT` dictionary of `main.py`: page and element geometry.
`codes_per_page` is a count and is kept as a `Nat`; all coordinates are
`Int`. -/
structure LayoutConfig where
  page_width : Int
  page_height : Int
  margin_top : Int
  margin_bottom : Int
  margin_left : Int
  margin_right : Int
  qr_size : Int
  box_width : Int
  box_height : Int
  qr_padding : Int
  row_spacing : Int
  codes_per_page : Nat
deriving DecidableEq, Repr

/-- The concrete `LAYOUT` constant of `main.py` (US Letter, 612×792). -/
def LAYOUT : LayoutConfig :=
  { page_width := 612
    page_height := 792
    margin_top := 36
    margin_bottom := 36
    margin_left := 72
    margin_right := 36
    qr_size := 60
    box_width := 504
    box_height := 72
    qr_padding := 6
    row_spacing := 72
    codes_per_page := 10 }

/-- Margin selection of `generate_pdf` (main.py lines 98–103): when
`double_sided` is set and the actual page number is even, the left and
right margins are swapped, otherwise they are taken as configured. -/
def computePageMargins (actualPageNum : Int) (doubleSided : Bool)
    (cfg : LayoutConfig) : Int × Int :=
  if doubleSided ∧ actualPageNum % 2 = 0 then
    (cfg.margin_right, cfg.margin_left)
  else
    (cfg.margin_left, cfg.margin_right)

/-- An axis-aligned rectangle in page coordinates (x, y = bottom-left
corner, as used by the PDF canvas). -/
structure Rect where
  x : Int
  y : Int
  w : Int
  h : Int
deriving DecidableEq, Repr

/-- Row box geometry of `generate_pdf` (main.py lines 105–119):
`box_width = width - margin_left - margin_right`,
`y_box = height - margin_top - row*row_spacing - box_height`,
`x_box = margin_left`, height `box_height`. -/
def computeRowRectangle (row : Nat) (marginLeft marginRight : Int)
    (cfg : LayoutConfig) : Rect :=
  { x := marginLeft
    y := cfg.page_height - cfg.margin_top - (row : Int) * cfg.row_spacing -
      cfg.box_height
    w := cfg.page_width - marginLeft - marginRight
    h := cfg.box_height }

/-- QR image placement of `generate_pdf` (main.py lines 121–126): even
rows put the image at the left interior edge plus `qr_padding`, odd rows
at the right interior edge minus `qr_size` and `qr_padding`; vertically
always `y_box + qr_padding`. -/
def computeCodePosition (row : Nat) (box : Rect) (cfg : LayoutConfig) :
    Int × Int :=
  (if row % 2 = 0 then box.x + cfg.qr_padding
   else box.x + box.w - cfg.qr_size - cfg.qr_padding,
   box.y + cfg.qr_padding)

/-- A drawing instruction sent to the reportlab canvas.  `rect` carries
the stroke/fill flags of `c.rect`, `image` the destination rectangle of
`c.drawInlineImage`, `text` the position and string of `c.drawString`. -/
inductive CanvasOp where
  | rect (x y w h : Int) (stroke fill : Nat)
  | image (x y w h : Int)
  | setFont (font : String) (size : Int)
  | text (x y : Int) (s : String)
  | showPage
  | save
deriving DecidableEq, Repr

def CanvasOp.isRect : CanvasOp → Bool
  | .rect _ _ _ _ _ _ => true
  | _ => false

def CanvasOp.isImage : CanvasOp → Bool
  | .image _ _ _ _ => true
  | _ => false

def CanvasOp.isText : CanvasOp → Bool
  | .text _ _ _ => true
  | _ => false

def CanvasOp.isShowPage : CanvasOp → Bool
  | .showPage => true
  | _ => false

def CanvasOp.isSave : CanvasOp → Bool
  | .save => true
  | _ => false

/-- The string drawn by a `text` instruction, if any. -/
def CanvasOp.textString : CanvasOp → Option String
  | .text _ _ s => some s
  | _ => none

/-- The body of the row loop of `generate_pdf` (main.py lines 107–135):
draw the box outline (`stroke=1, fill=0`) and the QR image (a
`qr_size`-square at the computed position). -/
def rowOps (cfg : LayoutConfig) (marginLeft marginRight : Int)
    (row : Nat) : List CanvasOp :=
  let box := computeRowRectangle row marginLeft marginRight cfg
  let pos := computeCodePosition row box cfg
  [.rect box.x box.y box.w box.h 1 0,
   .image pos.1 pos.2 cfg.qr_size cfg.qr_size]

/-- The page-number label string, the f-string `"Page "` followed by the
decimal rendering of `actual_page_num` (main.py line 138). -/
def pageLabel (actualPageNum : Int) : String :=
  "Page " ++ toString actualPageNum

/-- The body of the page loop of `generate_pdf` (main.py lines 92–144)
for zero-based page index `pageNum`: draw all rows, then the
right-aligned page label at
`(width - margin_right - stringWidth(label), margin_bottom - 20)`, then
`showPage`.  `tw` abstracts the canvas's `stringWidth` text-metrics
collaborator. -/
def pageOps (startPage : Int) (doubleSided : Bool) (cfg : LayoutConfig)
    (tw : String → Int) (pageNum : Nat) : List CanvasOp :=
  let actual : Int := startPage + pageNum
  let m := computePageMargins actual doubleSided cfg
  (List.range cfg.codes_per_page).flatMap (rowOps cfg m.1 m.2) ++
    [.setFont "Helvetica" 10,
     .text (cfg.page_width - m.2 - tw (pageLabel actual))
       (cfg.margin_bottom - 20) (pageLabel actual),
     .showPage]

/-- The full instruction trace of `generate_pdf` (main.py lines 75–148):
all pages in order, then a single `save`. -/
def generate_pdf (numPages : Nat) (startPage : Int) (doubleSided : Bool)
    (cfg : LayoutConfig) (tw : String → Int) : List CanvasOp :=
  (List.range numPages).flatMap (pageOps startPage doubleSided cfg tw) ++
    [.save]

/-- The lowercase hexadecimal digit character for a value below 16, as
produced by the CPython percent-032x formatting used by `UUID.hex`:
code point 48 + n for a decimal digit, 87 + n for the letters so that
10 maps to code point 97. -/
def hexDigitChar (n : Nat) : Char :=
  if n < 10 then Char.ofNat (48 + n)
  else if n < 16 then Char.ofNat (87 + n)
  else Char.ofNat 48

/-- The 32-character zero-padded lowercase hex rendering of a 128-bit
value, most significant digit first (`UUID.hex`). -/
def toHex32 (n : Nat) : List Char :=
  (List.range 32).map (fun i => hexDigitChar (n / 16 ^ (31 - i) % 16))

/-- The 128-bit integer of a version-4 UUID built from the random value
`r`: the 16 random bytes with the variant field forced to `10` and the
version field forced to `0100`, as CPython's `uuid.uuid4` does
(clear `0xc000 <<< 48`, set `0x8000 <<< 48`; clear `0xf000 <<< 64`, set
`4 <<< 76`). -/
def uuid4Int (r : Nat) : Nat :=
  let n := r % 2 ^ 128
  let n := (n - (n &&& (0xc000 <<< 48))) ||| (0x8000 <<< 48)
  let n := (n - (n &&& (0xf000 <<< 64))) ||| (0x4000 <<< 64)
  n

/-- `generate_uuid4_without_dashes` of main.py lines 44–46: `uuid4().hex`,
the version-4 UUID of the 128-bit random draw `r` rendered as 32 hex
characters with no separators. -/
def generate_uuid4_without_dashes (r : Nat) : List Char :=
  toHex32 (uuid4Int r)

/-- A clock reading as used by `datetime.now()`: Python datetimes always
satisfy `1 ≤ year ≤ 9999`, `1 ≤ month ≤ 12`, `1 ≤ day ≤ 31`,
`hour < 24`, `minute < 60`, `second < 60`. -/
structure DateTimeV where
  year : Nat
  month : Nat
  day : Nat
  hour : Nat
  minute : Nat
  second : Nat
deriving DecidableEq, Repr

/-- Zero-padded two-digit decimal field (strftime `%m` `%d` `%H` `%M`
`%S` for in-range values). -/
def pad2 (n : Nat) : List Char :=
  [hexDigitChar (n / 10 % 10), hexDigitChar (n % 10)]

/-- Zero-padded four-digit decimal field (strftime `%Y` for Python's
year range 1–9999). -/
def pad4 (n : Nat) : List Char :=
  [hexDigitChar (n / 1000 % 10), hexDigitChar (n / 100 % 10),
   hexDigitChar (n / 10 % 10), hexDigitChar (n % 10)]

/-- The strftime format string of main.py line 71, rendered for the
clock reading `t`: `YYYYMMDD-HHMMSS`. -/
def strftimeTimestamp (t : DateTimeV) : List Char :=
  pad4 t.year ++ pad2 t.month ++ pad2 t.day ++
    '-' :: (pad2 t.hour ++ pad2 t.minute ++ pad2 t.second)

/-- Splits a list at its last `'.'`: returns the part before and the
part after, the part after containing no `'.'`; `none` when there is no
dot. -/
def splitLastDot : List Char → Option (List Char × List Char)
  | [] => none
  | c :: cs =>
    match splitLastDot cs with
    | some (p, q) => some (c :: p, q)
    | none => if c = '.' then some ([], cs) else none

/-- `pathlib` stem/suffix of a bare filename: the suffix is the final
dot-led extension when the last dot is neither the first nor the last
character, otherwise empty; the stem is the rest. -/
def pathStemSuffix (name : List Char) : List Char × List Char :=
  match splitLastDot name with
  | some (p, q) => if p ≠ [] ∧ q ≠ [] then (p, '.' :: q) else (name, [])
  | none => (name, [])

/-- `get_timestamped_filename` of main.py lines 68–72: the stem, a
hyphen, the `YYYYMMDD-HHMMSS` timestamp of the clock reading, then the
suffix. -/
def get_timestamped_filename (base : List Char) (t : DateTimeV) :
    List Char :=
  let s := pathStemSuffix base
  s.1 ++ '-' :: (strftimeTimestamp t ++ s.2)

/-- Outcome of the validation in `parse_arguments`: either the parser's
fatal error path (`parser.error`, which prints to standard error and
exits nonzero) or acceptance. -/
inductive ArgCheck where
  | fatal (msg : String)
  | ok
deriving DecidableEq, Repr

/-- The validation logic of `parse_arguments` (main.py lines 184–193)
given the parsed integer arguments: returns the lines printed to
standard output (the over-100 warning) and the outcome, in the source's
evaluation order (the page-count error pre-empts the warning, the
warning is printed before the start-page check). -/
def validateArguments (numPages startPage : Int) :
    List String × ArgCheck :=
  if numPages < 1 then
    ([], .fatal "Number of pages must be at least 1")
  else
    let warns :=
      if numPages > 100 then
        ["Warning: Generating " ++ toString numPages ++
          " pages. This may take a while..."]
      else []
    if startPage < 1 then
      (warns, .fatal "Starting page number must be at least 1")
    else
      (warns, .ok)

/-- The box/QR geometry actually drawn for row `row` of the page with
actual page number `p`: the row rectangle computed from the effective
margins of that page. -/
def drawnBox (p : Int) (d : Bool) (row : Nat) (cfg : LayoutConfig) :
    Rect :=
  let m := computePageMargins p d cfg
  computeRowRectangle row m.1 m.2 cfg

/-- The QR-image position actually drawn for row `row` of the page with
actual page number `p`. -/
def drawnQRPos (p : Int) (d : Bool) (row : Nat) (cfg : LayoutConfig) :
    Int × Int :=
  computeCodePosition row (drawnBox p d row cfg) cfg

/-- C1: for every actual page number ≥ 1 and every config,
`computePageMargins` with `doubleSided = false` returns
`(margin_left, margin_right)` unconditionally; with
`doubleSided = true` it returns the swapped pair when the actual page
number is even and the unswapped pair when it is odd. -/
theorem C1_computePageMargins_spec (p : Int) (cfg : LayoutConfig)
    (_hp : 1 ≤ p) :
    computePageMargins p false cfg = (cfg.margin_left, cfg.margin_right) ∧
    (p % 2 = 0 →
      computePageMargins p true cfg = (cfg.margin_right, cfg.margin_left)) ∧
    (p % 2 ≠ 0 →
      computePageMargins p true cfg = (cfg.margin_left, cfg.margin_right)) := by
  refine ⟨by simp [computePageMargins], ?_, ?_⟩ <;> intro h <;>
    simp [computePageMargins, h]

/-- Witness for C1 at `p = 2` with the default config. -/
theorem C1_witness :
    (1 : Int) ≤ 2 ∧
    computePageMargins 2 false LAYOUT = (72, 36) ∧
    computePageMargins 2 true LAYOUT = (36, 72) :=
  ⟨by norm_num,
   (C1_computePageMargins_spec 2 LAYOUT (by norm_num)).1,
   (C1_computePageMargins_spec 2 LAYOUT (by norm_num)).2.1 (by decide)⟩

/-- C2: for every row index and margin pair, the row box has width
`page_width - leftMargin - rightMargin`, left edge `leftMargin` and
bottom `page_height - margin_top - row*row_spacing - box_height`;
consecutive rows differ in `y` by exactly `row_spacing`, and for
positive `row_spacing` the `y` coordinate is strictly decreasing in the
row index. -/
theorem C2_computeRowRectangle_spec (row : Nat) (mL mR : Int)
    (cfg : LayoutConfig) :
    (computeRowRectangle row mL mR cfg).w = cfg.page_width - mL - mR ∧
    (computeRowRectangle row mL mR cfg).x = mL ∧
    (computeRowRectangle row mL mR cfg).y =
      cfg.page_height - cfg.margin_top - (row : Int) * cfg.row_spacing -
        cfg.box_height ∧
    (computeRowRectangle (row + 1) mL mR cfg).y =
      (computeRowRectangle row mL mR cfg).y - cfg.row_spacing ∧
    (0 < cfg.row_spacing → ∀ i j : Nat, i < j →
      (computeRowRectangle j mL mR cfg).y <
        (computeRowRectangle i mL mR cfg).y) := by
  refine ⟨rfl, rfl, rfl, ?_, ?_⟩
  · simp only [computeRowRectangle]
    push_cast
    ring
  · intro hrs i j hij
    simp only [computeRowRectangle]
    have h : (i : Int) * cfg.row_spacing < (j : Int) * cfg.row_spacing :=
      mul_lt_mul_of_pos_right (by exact_mod_cast hij) hrs
    linarith

/-- Witness for C2 at rows 0 and 1 with the default margins. -/
theorem C2_witness :
    (computeRowRectangle 0 72 36 LAYOUT).w = 504 ∧
    (0 : Int) < LAYOUT.row_spacing ∧
    (computeRowRectangle 1 72 36 LAYOUT).y <
      (computeRowRectangle 0 72 36 LAYOUT).y :=
  ⟨(C2_computeRowRectangle_spec 0 72 36 LAYOUT).1,
   by decide,
   (C2_computeRowRectangle_spec 0 72 36 LAYOUT).2.2.2.2 (by decide) 0 1
     (by decide)⟩

/-- C3: the code image's horizontal position alternates by row parity —
even row index gives `box.x + qr_padding`, odd row index gives
`box.x + box.w - qr_size - qr_padding` — and the vertical position is
always `box.y + qr_padding`. -/
theorem C3_computeCodePosition_spec (row : Nat) (box : Rect)
    (cfg : LayoutConfig) :
    (row % 2 = 0 →
      computeCodePosition row box cfg =
        (box.x + cfg.qr_padding, box.y + cfg.qr_padding)) ∧
    (row % 2 = 1 →
      computeCodePosition row box cfg =
        (box.x + box.w - cfg.qr_size - cfg.qr_padding,
         box.y + cfg.qr_padding)) ∧
    (computeCodePosition row box cfg).2 = box.y + cfg.qr_padding := by
  refine ⟨?_, ?_, rfl⟩ <;> intro h <;> simp [computeCodePosition, h]

/-- Witness for C3 at rows 0 and 1 on a concrete box. -/
theorem C3_witness :
    computeCodePosition 0 ⟨72, 100, 504, 72⟩ LAYOUT = (78, 106) ∧
    computeCodePosition 1 ⟨72, 100, 504, 72⟩ LAYOUT = (510, 106) :=
  ⟨(C3_computeCodePosition_spec 0 ⟨72, 100, 504, 72⟩ LAYOUT).1 (by decide),
   (C3_computeCodePosition_spec 1 ⟨72, 100, 504, 72⟩ LAYOUT).2.1 (by decide)⟩

/-- C9: the drawn box width `page_width - leftMargin - rightMargin` is
the same on every page regardless of the double-sided flag and page
parity, because the margin swap preserves the margin sum; with the
default config it is always `612 - 72 - 36 = 504`. -/
theorem C9_boxWidth_invariant (p : Int) (d : Bool) (cfg : LayoutConfig) :
    cfg.page_width - (computePageMargins p d cfg).1 -
        (computePageMargins p d cfg).2 =
      cfg.page_width - cfg.margin_left - cfg.margin_right ∧
    LAYOUT.page_width - (computePageMargins p d LAYOUT).1 -
        (computePageMargins p d LAYOUT).2 = 504 := by
  constructor
  · unfold computePageMargins
    split <;> ring
  · unfold computePageMargins
    split <;> decide

/-- C10: with the default config, on every page and every row the drawn
QR image square lies entirely inside that row's box rectangle. -/
theorem C10_qr_inside_box (p : Int) (d : Bool) (row : Nat) :
    (drawnBox p d row LAYOUT).x ≤ (drawnQRPos p d row LAYOUT).1 ∧
    (drawnQRPos p d row LAYOUT).1 + LAYOUT.qr_size ≤
      (drawnBox p d row LAYOUT).x + (drawnBox p d row LAYOUT).w ∧
    (drawnBox p d row LAYOUT).y ≤ (drawnQRPos p d row LAYOUT).2 ∧
    (drawnQRPos p d row LAYOUT).2 + LAYOUT.qr_size ≤
      (drawnBox p d row LAYOUT).y + (drawnBox p d row LAYOUT).h := by
  unfold drawnQRPos drawnBox computePageMargins computeRowRectangle
    computeCodePosition
  split <;> by_cases h2 : row % 2 = 0 <;> simp [h2, LAYOUT] <;> omega

/-- The sixteen lowercase hexadecimal digit characters. -/
def hexChars : List Char := "0123456789abcdef".toList

theorem hexDigitChar_mem_hexChars : ∀ k < 16, hexDigitChar k ∈ hexChars := by
  decide

/-- C4: every call to `generate_uuid4_without_dashes` returns exactly 32
characters, each a lowercase hexadecimal digit, with no hyphen. -/
theorem C4_uuid_hex (r : Nat) :
    (generate_uuid4_without_dashes r).length = 32 ∧
    (∀ c ∈ generate_uuid4_without_dashes r, c ∈ hexChars) ∧
    '-' ∉ generate_uuid4_without_dashes r := by
  have hall : ∀ c ∈ generate_uuid4_without_dashes r, c ∈ hexChars := by
    intro c hc
    simp only [generate_uuid4_without_dashes, toHex32, List.mem_map,
      List.mem_range] at hc
    obtain ⟨i, _, rfl⟩ := hc
    exact hexDigitChar_mem_hexChars _ (Nat.mod_lt _ (by norm_num))
  refine ⟨by simp [generate_uuid4_without_dashes, toHex32], hall,
    fun hmem => ?_⟩
  have h := hall _ hmem
  revert h
  decide

/-- Witness for C4 at the random draw `r = 0`. -/
theorem C4_witness :
    (generate_uuid4_without_dashes 0).length = 32 ∧
    '-' ∉ generate_uuid4_without_dashes 0 :=
  ⟨(C4_uuid_hex 0).1, (C4_uuid_hex 0).2.2⟩

theorem rowOps_filter_isText (cfg : LayoutConfig) (mL mR : Int)
    (row : Nat) :
    (rowOps cfg mL mR row).filter CanvasOp.isText = [] := rfl

theorem flatMap_rowOps_filter_isText (cfg : LayoutConfig) (mL mR : Int)
    (l : List Nat) :
    (l.flatMap (rowOps cfg mL mR)).filter CanvasOp.isText = [] := by
  induction l with
  | nil => rfl
  | cons a l ih =>
    simp [List.flatMap_cons, List.filter_append, rowOps_filter_isText, ih]

/-- C5: on every rendered page the only text drawn is the page-number
label `pageLabel p` for the actual page number `p`, at
`x = page_width - rightMargin - textWidth(label)` and
`y = margin_bottom - 20`, where `rightMargin` is the page's effective
right margin. -/
theorem C5_page_label (startPage : Int) (d : Bool) (cfg : LayoutConfig)
    (tw : String → Int) (pageNum : Nat) :
    (pageOps startPage d cfg tw pageNum).filter CanvasOp.isText =
      [CanvasOp.text
        (cfg.page_width -
          (computePageMargins (startPage + pageNum) d cfg).2 -
          tw (pageLabel (startPage + pageNum)))
        (cfg.margin_bottom - 20)
        (pageLabel (startPage + pageNum))] := by
  unfold pageOps
  simp [List.filter_append, flatMap_rowOps_filter_isText,
    List.filter, CanvasOp.isText]

theorem rowOps_countP (cfg : LayoutConfig) (mL mR : Int) (row : Nat) :
    (rowOps cfg mL mR row).countP CanvasOp.isRect = 1 ∧
    (rowOps cfg mL mR row).countP CanvasOp.isImage = 1 ∧
    (rowOps cfg mL mR row).countP CanvasOp.isShowPage = 0 ∧
    (rowOps cfg mL mR row).countP CanvasOp.isSave = 0 :=
  ⟨rfl, rfl, rfl, rfl⟩

theorem countP_flatMap_const (p : CanvasOp → Bool) (f : Nat → List CanvasOp)
    (k : Nat) (h : ∀ a, (f a).countP p = k) (l : List Nat) :
    (l.flatMap f).countP p = l.length * k := by
  induction l with
  | nil => simp
  | cons a l ih =>
    simp only [List.flatMap_cons, List.countP_append, h, ih,
      List.length_cons]
    ring

theorem pageOps_countP (startPage : Int) (d : Bool) (cfg : LayoutConfig)
    (tw : String → Int) (pageNum : Nat) :
    (pageOps startPage d cfg tw pageNum).countP CanvasOp.isShowPage = 1 ∧
    (pageOps startPage d cfg tw pageNum).countP CanvasOp.isRect =
      cfg.codes_per_page ∧
    (pageOps startPage d cfg tw pageNum).countP CanvasOp.isImage =
      cfg.codes_per_page ∧
    (pageOps startPage d cfg tw pageNum).countP CanvasOp.isSave = 0 := by
  refine ⟨?_, ?_, ?_, ?_⟩
  · unfold pageOps
    rw [List.countP_append, countP_flatMap_const _ _ 0
      (fun a => (rowOps_countP cfg _ _ a).2.2.1)]
    simp [List.countP_cons, CanvasOp.isShowPage]
  · unfold pageOps
    rw [List.countP_append, countP_flatMap_const _ _ 1
      (fun a => (rowOps_countP cfg _ _ a).1)]
    simp [List.countP_cons, CanvasOp.isRect]
  · unfold pageOps
    rw [List.countP_append, countP_flatMap_const _ _ 1
      (fun a => (rowOps_countP cfg _ _ a).2.1)]
    simp [List.countP_cons, CanvasOp.isImage]
  · unfold pageOps
    rw [List.countP_append, countP_flatMap_const _ _ 0
      (fun a => (rowOps_countP cfg _ _ a).2.2.2)]
    simp [List.countP_cons, CanvasOp.isSave]

/-- C8: the generated document has exactly `numPages` pages, every page
contains exactly `codes_per_page` box and code draws (10 in the default
config), the document is saved exactly once and only after all pages;
with `numPages = 2`, `startPage = 1`, `doubleSided = false` the two page
labels read `"Page 1"` and `"Page 2"`. -/
theorem C8_generateDocument (numPages : Nat) (startPage : Int) (d : Bool)
    (cfg : LayoutConfig) (tw : String → Int) :
    (generate_pdf numPages startPage d cfg tw).countP
        CanvasOp.isShowPage = numPages ∧
    (generate_pdf numPages startPage d cfg tw).countP
        CanvasOp.isSave = 1 ∧
    (generate_pdf numPages startPage d cfg tw).getLast? =
      some CanvasOp.save ∧
    (∀ i : Nat,
      (pageOps startPage d cfg tw i).countP CanvasOp.isRect =
        cfg.codes_per_page ∧
      (pageOps startPage d cfg tw i).countP CanvasOp.isImage =
        cfg.codes_per_page) ∧
    LAYOUT.codes_per_page = 10 ∧
    (generate_pdf 2 1 false LAYOUT tw).filterMap CanvasOp.textString =
      ["Page 1", "Page 2"] := by
  refine ⟨?_, ?_, ?_,
    fun i => ⟨(pageOps_countP startPage d cfg tw i).2.1,
      (pageOps_countP startPage d cfg tw i).2.2.1⟩,
    rfl, ?_⟩
  · unfold generate_pdf
    rw [List.countP_append, countP_flatMap_const _ _ 1
      (fun a => (pageOps_countP startPage d cfg tw a).1)]
    simp [List.countP_cons, CanvasOp.isShowPage]
  · unfold generate_pdf
    rw [List.countP_append, countP_flatMap_const _ _ 0
      (fun a => (pageOps_countP startPage d cfg tw a).2.2.2)]
    simp [List.countP_cons, CanvasOp.isSave]
  · exact List.getLast?_concat _
  · rfl

theorem splitLastDot_eq_none (l : List Char) (h : '.' ∉ l) :
    splitLastDot l = none := by
  induction l with
  | nil => rfl
  | cons c cs ih =>
    rw [List.mem_cons, not_or] at h
    rw [splitLastDot, ih h.2]
    simp [Ne.symm h.1]

theorem splitLastDot_append (s e : List Char) (h : '.' ∉ e) :
    splitLastDot (s ++ '.' :: e) = some (s, e) := by
  induction s with
  | nil => simp [splitLastDot, splitLastDot_eq_none e h]
  | cons c cs ih =>
    rw [List.cons_append, splitLastDot, ih]

theorem pathStemSuffix_ext (s e : List Char) (hs : s ≠ []) (he : e ≠ [])
    (hd : '.' ∉ e) :
    pathStemSuffix (s ++ '.' :: e) = (s, '.' :: e) := by
  unfold pathStemSuffix
  rw [splitLastDot_append s e hd]
  simp [hs, he]

theorem hexDigitChar_mod10_isDigit (k : Nat) :
    (hexDigitChar (k % 10)).isDigit = true := by
  have h : k % 10 < 10 := Nat.mod_lt _ (by norm_num)
  revert h
  generalize k % 10 = m
  revert m
  decide

/-- C6: for every base filename written `stem.ext` (nonempty stem,
nonempty dot-free extension) and every clock reading, the timestamped
output name is the stem, then a hyphen and the `YYYYMMDD-HHMMSS`
timestamp, then the extension; in particular for the base
`qr-codes.pdf` the result is `qr-codes-`, then a 15-character timestamp
consisting of 14 decimal digits around a hyphen at index 8, then
`.pdf`. -/
theorem C6_timestamped_filename (s e : List Char) (t : DateTimeV)
    (hs : s ≠ []) (he : e ≠ []) (hd : '.' ∉ e) :
    get_timestamped_filename (s ++ '.' :: e) t =
      s ++ '-' :: (strftimeTimestamp t ++ '.' :: e) ∧
    get_timestamped_filename "qr-codes.pdf".toList t =
      "qr-codes-".toList ++ strftimeTimestamp t ++ ".pdf".toList ∧
    (strftimeTimestamp t).length = 15 ∧
    (strftimeTimestamp t).countP Char.isDigit = 14 ∧
    (strftimeTimestamp t)[8]? = some '-' := by
  refine ⟨?_, ?_, ?_, ?_, ?_⟩
  · unfold get_timestamped_filename
    rw [pathStemSuffix_ext s e hs he hd]
  · have hsplit : "qr-codes.pdf".toList =
        "qr-codes".toList ++ '.' :: "pdf".toList := by decide
    unfold get_timestamped_filename
    rw [hsplit, pathStemSuffix_ext "qr-codes".toList "pdf".toList
      (by decide) (by decide) (by decide)]
    simp
  · simp [strftimeTimestamp, pad4, pad2]
  · simp [strftimeTimestamp, pad4, pad2, List.countP_append,
      List.countP_cons, hexDigitChar_mod10_isDigit]
  · simp [strftimeTimestamp, pad4, pad2]

/-- Witness for C6 at the base `qr-codes.pdf` and the clock reading
2025-01-09 14:30:22. -/
theorem C6_witness :
    get_timestamped_filename "qr-codes.pdf".toList
        ⟨2025, 1, 9, 14, 30, 22⟩ =
      "qr-codes-20250109-143022.pdf".toList ∧
    (strftimeTimestamp ⟨2025, 1, 9, 14, 30, 22⟩).length = 15 := by
  have h := C6_timestamped_filename "a".toList "pdf".toList
    ⟨2025, 1, 9, 14, 30, 22⟩ (by decide) (by decide) (by decide)
  refine ⟨?_, h.2.2.1⟩
  rw [h.2.1]
  decide

/-- C7: a page count below 1 or a start page below 1 is rejected through
the parser's fatal error path before generation; a page count above 100
only emits a warning line on standard output and the arguments are
accepted. -/
theorem C7_argument_validation (n s : Int) :
    ((validateArguments n s).2 = ArgCheck.ok ↔ 1 ≤ n ∧ 1 ≤ s) ∧
    ((validateArguments n s).1 ≠ [] ↔ 100 < n) ∧
    (100 < n → 1 ≤ s →
      (validateArguments n s).2 = ArgCheck.ok ∧
      (validateArguments n s).1 =
        ["Warning: Generating " ++ toString n ++
          " pages. This may take a while..."]) := by
  unfold validateArguments
  by_cases h1 : n < 1 <;> by_cases h2 : n > 100 <;> by_cases h3 : s < 1 <;>
    simp [h1, h2, h3] <;> omega

/-- Witness for C7: page count 0 and start page 0 are fatal, page count
150 with start page 1 is accepted with a warning. -/
theorem C7_witness :
    (validateArguments 0 1).2 ≠ ArgCheck.ok ∧
    (validateArguments 1 0).2 ≠ ArgCheck.ok ∧
    (validateArguments 150 1).2 = ArgCheck.ok ∧
    (validateArguments 150 1).1 ≠ [] := by
  refine ⟨fun h => ?_, fun h => ?_,
    ((C7_argument_validation 150 1).2.2 (by norm_num) (by norm_num)).1,
    (C7_argument_validation 150 1).2.1.mpr (by norm_num)⟩
  · have := (C7_argument_validation 0 1).1.mp h
    omega
  · have := (C7_argument_validation 1 0).1.mp h
    omega
